import Mathlib

/-!
Shallow embedding of the can-explorer ingestion and insight pipeline
(`src/ingest.py`, `src/insights.py`).

Modelling conventions:
* Spreadsheet cells are `Option CellVal`, where a `CellVal` is either a text
  cell or an integer cell (the three-variant tag Empty/Number/Text of the
  design notes).  Fractional numeric cells and datetimes are outside the
  model; every concrete input used below is built from text and integer
  cells only.
* Python `float` values are modelled as exact rationals `ℚ`.  The special
  floats `inf`/`nan`, underscore digit separators, and binary-representation
  artefacts of `round` are outside the model.
* Python's `str.strip()` whitespace set is modelled by `pyIsSpace`
  (ASCII whitespace plus the non-breaking space, the characters that occur
  in the data).
* `re` character classes `\d`, `[a-zA-Z]`, `\w`, `\s` are modelled over the
  same alphabet (`Char.isDigit`, `Char.isAlpha`, alphanumerics plus
  underscore and the three Swedish letters, `pyIsSpace`).
-/

namespace CanExplorer

/-- A spreadsheet cell value: text or integer number. -/
inductive CellVal where
  | str (v : String)
  | int (v : Int)
deriving DecidableEq, Repr

/-- A cell: possibly empty. -/
abbrev Cell := Option CellVal

/-- Python whitespace characters stripped by `str.strip()` (restricted to the
characters occurring in the source data, including the non-breaking space). -/
def pyIsSpace (c : Char) : Bool :=
  c = ' ' ∨ c = '\t' ∨ c = '\n' ∨ c = '\r' ∨ c = '\x0b' ∨ c = '\x0c' ∨ c = '\xa0'

/-- Python `str.strip()`: drop leading and trailing whitespace. -/
def pyStrip (s : String) : String :=
  ⟨(s.data.dropWhile pyIsSpace).reverse.dropWhile pyIsSpace |>.reverse⟩

/-- Python `str(val)` for the two modelled cell variants. -/
def pyStr : CellVal → String
  | .str v => v
  | .int v => toString v

/-- Model of `str.lower()` (ASCII case mapping; the fixed phrases compared
after lowering contain no non-ASCII uppercase). -/
def pyToLowerChar (c : Char) : Char :=
  if 'A' ≤ c ∧ c ≤ 'Z' then Char.ofNat (c.toNat + 32) else c

/-- `str.lower()` over the character list. -/
def pyToLower (s : String) : String := ⟨s.data.map pyToLowerChar⟩

/-- `s.startswith(pre)`. -/
def pyStartsWith (s pre : String) : Bool := pre.data.isPrefixOf s.data

/-- Code-point comparison of strings (pandas lexicographic sort order). -/
def charListLe : List Char → List Char → Bool
  | [], _ => true
  | _ :: _, [] => false
  | a :: as, b :: bs => if a < b then true else if b < a then false else charListLe as bs

/-- Python `pat in s` substring test. -/
def containsSub (s pat : String) : Bool :=
  s.data.tails.any (fun t => pat.data.isPrefixOf t)

/-- `ingest.parse_year_value`, digit run value. -/
def digitsVal (cs : List Char) : Nat :=
  cs.foldl (fun a c => 10 * a + (c.toNat - 48)) 0

/-- The regex `^(\d{4})([a-zA-Z]?)$` of `parse_year_value`: returns the
4-digit value and the (possibly empty) suffix. -/
def yearRegexMatch (s : String) : Option (Int × String) :=
  let cs := s.data
  if cs.length = 4 then
    if (cs.all Char.isDigit) then some ((digitsVal cs : Int), "") else none
  else if cs.length = 5 then
    if (cs.take 4).all Char.isDigit ∧ (cs.getD 4 ' ').isAlpha then
      some ((digitsVal (cs.take 4) : Int), String.mk (cs.drop 4))
    else none
  else none

/-- Python `float()` exponent part: empty remainder or `e`/`E` with optional
sign and at least one digit. -/
def parseExp (cs : List Char) : Option Int :=
  match cs with
  | [] => some 0
  | c :: r =>
    if c = 'e' ∨ c = 'E' then
      let (es, r2) : Int × List Char :=
        match r with
        | '+' :: t => (1, t)
        | '-' :: t => (-1, t)
        | _ => (1, r)
      let ds := r2.takeWhile Char.isDigit
      if ds ≠ [] ∧ r2.dropWhile Char.isDigit = [] then
        some (es * (digitsVal ds : Int))
      else none
    else none

/-- Model of Python `float(s)` as an exact rational: optional surrounding
whitespace, optional sign, decimal mantissa, optional exponent.
`none` models a raised `ValueError`. -/
def parseFloat? (s : String) : Option ℚ :=
  let cs := (pyStrip s).data
  let (sgn, cs1) : ℚ × List Char :=
    match cs with
    | '+' :: t => (1, t)
    | '-' :: t => (-1, t)
    | _ => (1, cs)
  let ip := cs1.takeWhile Char.isDigit
  let rest := cs1.dropWhile Char.isDigit
  let (fp, rest2) : List Char × List Char :=
    match rest with
    | '.' :: r => (r.takeWhile Char.isDigit, r.dropWhile Char.isDigit)
    | _ => ([], rest)
  if ip = [] ∧ fp = [] then none
  else
    match parseExp rest2 with
    | none => none
    | some e =>
      let mant : ℚ := (digitsVal (ip ++ fp) : ℚ) / ((10 : ℚ) ^ fp.length)
      some (sgn * mant * (10 : ℚ) ^ e)

/-- Python `int(q)` on a float: truncation toward zero. -/
def pyIntOfRat (q : ℚ) : Int :=
  if 0 ≤ q then ⌊q⌋ else ⌈q⌉

/-- `ingest.parse_year_value`: parse a year value, preserving the suffix.
Returns `(year, year_label)` or `none` (Python `(None, None)`). -/
def parseYearValue (val : Cell) : Option (Int × String) :=
  match val with
  | none => none
  | some v =>
    let s := pyStrip (pyStr v)
    let fallback : Option (Int × String) :=
      match parseFloat? s with
      | some q =>
        let n := pyIntOfRat q
        if 1960 ≤ n ∧ n ≤ 2030 then some (n, toString n) else none
      | none => none
    match yearRegexMatch s with
    | some (y, suffix) =>
      if 1960 ≤ y ∧ y ≤ 2030 then
        some (y, if suffix ≠ "" then s else toString y)
      else fallback
    | none => fallback

/-- `ingest.is_year_like`. -/
def isYearLike (val : Cell) : Bool :=
  (parseYearValue val).isSome

/-- The closed missing-value token set of `ingest.clean_numeric`. -/
def missingTokens : List String :=
  [".", "..", "–", "-", "…", "", "None", "none", "*"]

/-- `ingest.clean_numeric`: convert a cell to a number, mapping the Swedish
missing-data tokens to `none`, otherwise removing ordinary and non-breaking
spaces and attempting a numeric parse. -/
def cleanNumeric (val : Cell) : Option ℚ :=
  match val with
  | none => none
  | some v =>
    let s := pyStrip (pyStr v)
    if s ∈ missingTokens then none
    else parseFloat? ⟨s.data.filter (fun c => ¬(c = ' ' ∨ c = '\xa0'))⟩

/-- Word characters kept by `clean_column_name`'s filter `[^\w\såäö]` →
removed; we keep `\w` (alphanumeric or underscore; ASCII model) plus the
three Swedish letters (already inside unicode `\w`, listed separately as in
the source pattern). -/
def isWordChar (c : Char) : Bool :=
  c.isAlphanum ∨ c = '_' ∨ c = 'å' ∨ c = 'ä' ∨ c = 'ö'

/-- Worker for `subRuns`: the flag records whether the previous character
was part of a `p`-run (whose replacement underscore was already emitted). -/
def subRunsGo (p : Char → Bool) : Bool → List Char → List Char
  | _, [] => []
  | inRun, c :: r =>
    if p c then
      if inRun then subRunsGo p true r else '_' :: subRunsGo p true r
    else c :: subRunsGo p false r

/-- `re.sub(p+, "_", ·)` on a character list: each maximal run of characters
satisfying `p` becomes a single underscore. -/
def subRuns (p : Char → Bool) (l : List Char) : List Char := subRunsGo p false l

/-- `ingest.clean_column_name`: strip, lower-case, drop characters outside
`\w\såäö`, collapse whitespace runs then underscore runs to single
underscores, trim underscores, defaulting to `"unknown"`. -/
def cleanColumnName (name : Cell) : String :=
  match name with
  | none => "unknown"
  | some v =>
    let s := pyToLower (pyStrip (pyStr v))
    let kept := s.data.filter (fun c => isWordChar c ∨ pyIsSpace c)
    let sub1 := subRuns pyIsSpace kept
    let sub2 := subRuns (fun c => c = '_') sub1
    let res := (sub2.dropWhile (· = '_')).reverse.dropWhile (· = '_') |>.reverse
    if res = [] then "unknown" else ⟨res⟩

/-- `clean_column_name` on a string argument. -/
def cleanStr (s : String) : String := cleanColumnName (some (.str s))

/-- One canonical record (`variable` is a Lean keyword, renamed `varName`). -/
structure RawRecord where
  year : Int
  year_label : String
  varName : String
  value : ℚ
  report : String
  table_id : String
  table_title : Option String
  topic : String
deriving DecidableEq, Repr

/-- `ingest.extract_table_title`: first string cell of the leading 5 rows
longer than 15 characters that is not a navigation phrase. -/
def extractTableTitle (rows : List (List Cell)) : Option String :=
  ((rows.take 5).flatten).findSome? fun cell =>
    match cell with
    | some (.str s) =>
      if 15 < s.length ∧
          ¬(containsSub (pyToLower s) "tillbaka" ∨ containsSub (pyToLower s) "innehåll")
      then some (pyStrip s) else none
    | _ => none

/-- `row[0] if row else None`. -/
def firstCell (row : List Cell) : Cell := row.head?.join

/-- Navigation boilerplate test used for group-header cells. -/
def navigationText (g : String) : Bool :=
  containsSub (pyToLower g) "tillbaka" ∨ containsSub (pyToLower g) "innehåll"

/-- One column of the multi-row header merge of `parse_sheet_to_long`:
given the carried group label, the column index and the (group row, header
row) cells, produce the raw merged name and the new carried group. -/
def mergeStep (current_group : String) (i : Nat) (group sub : Cell) :
    String × String :=
  let cg :=
    match group with
    | some (.str g0) =>
      let g := pyStrip g0
      if 0 < g.length ∧ ¬navigationText g then g else current_group
    | _ => current_group
  let sub_str := match sub with | none => "" | some v => pyStrip (pyStr v)
  let nm :=
    if cg ≠ "" ∧ sub_str ≠ "" ∧ 0 < i then cg ++ "__" ++ sub_str
    else if sub_str ≠ "" then sub_str
    else if cg ≠ "" ∧ 0 < i then cg
    else "col_" ++ toString i
  (nm, cg)

/-- The header-merge loop (`zip(group_row, raw_headers)` with a carried
`current_group`). -/
def mergeHeaders (groupRow headerRow : List Cell) : List String :=
  (((groupRow.zip headerRow).enum).foldl
    (fun (acc : List String × String) p =>
      let (nm, cg) := mergeStep acc.2 p.1 p.2.1 p.2.2
      (acc.1 ++ [nm], cg))
    ([], "")).1

/-- Association-list update for the `seen` counter map. -/
def setAssoc : List (String × Nat) → String → Nat → List (String × Nat)
  | [], k, v => [(k, v)]
  | (k', v') :: t, k, v =>
    if k' = k then (k, v) :: t else (k', v') :: setAssoc t k v

/-- The `seen`-map disambiguation loop of `parse_sheet_to_long`: every
repeat occurrence of a name gets an incrementing `_N` suffix. -/
def makeUnique (hs : List String) : List String :=
  (hs.foldl
    (fun (acc : List String × List (String × Nat)) h =>
      match acc.2.lookup h with
      | some n => (acc.1 ++ [h ++ "_" ++ toString (n + 1)], setAssoc acc.2 h (n + 1))
      | none => (acc.1 ++ [h], (h, 0) :: acc.2))
    ([], [])).1

/-- Header resolution for the long format: merge with the group row when the
header row is not the first row, normalize, disambiguate. -/
def resolveHeaders (rows : List (List Cell)) (header_row_idx : Nat) : List String :=
  let raw := rows.getD header_row_idx []
  let names :=
    if 0 < header_row_idx then
      (mergeHeaders (rows.getD (header_row_idx - 1) []) raw).map cleanStr
    else raw.map cleanColumnName
  makeUnique names

/-- The long-format anchor search: index of the first row whose first cell
parses as a year (the source iterates over all rows). -/
def anchorIdx (rows : List (List Cell)) : Option Nat :=
  rows.findIdx? (fun row => isYearLike (firstCell row))

/-- `header_row_idx` computation: the row above the anchor, one further up
when that row is entirely empty (`max(0, ·)` is Nat subtraction). -/
def headerRowIdxFor (rows : List (List Cell)) (data_start : Nat) : Nat :=
  let h := data_start - 1
  if (rows.getD h []).all (fun v => v = none) then data_start - 2 else h

/-- The long-format (years-as-rows) branch of `parse_sheet_to_long`. -/
def longBranch (rows : List (List Cell)) (data_start : Nat)
    (report_id sheet_name : String) (title : Option String) (topic : String)
    (substance_map : List (String × String)) : Option (List RawRecord) :=
  let headers := resolveHeaders rows (headerRowIdxFor rows data_start)
  let substance := (substance_map.lookup sheet_name).getD ""
  let records := (rows.drop data_start).flatMap (fun row =>
    match parseYearValue (firstCell row) with
    | none => []
    | some (year_int, year_label) =>
      (List.range' 1 (min row.length headers.length - 1)).filterMap (fun col_idx =>
        match cleanNumeric (row.getD col_idx none) with
        | none => none
        | some val =>
          let vn := headers.getD col_idx ""
          some { year := year_int, year_label := year_label,
                 varName := if substance ≠ "" then substance ++ "__" ++ vn else vn,
                 value := val, report := report_id, table_id := sheet_name,
                 table_title := title, topic := topic }))
  if records.isEmpty then none else some records

/-- The fixed footnote/source-citation prefixes skipped in the wide format. -/
def footnotePrefixes : List String := ["Källa", "Not", "a)", "b)", "Anm"]

/-- One row of `parse_wide_year_columns`: the accumulator carries the emitted
records and the current hierarchy parent. -/
def wideRowStep (year_map : List (Nat × Int × String))
    (report_id sheet_name : String) (title : Option String) (topic : String)
    (acc : List RawRecord × String) (row : List Cell) :
    List RawRecord × String :=
  let (recs, current_parent) := acc
  match firstCell row with
  | none => acc
  | some lv =>
    let label_str := pyStr lv
    let label_stripped := pyStrip label_str
    let emptyLabel := match lv with | .str _ => label_stripped == "" | .int _ => false
    if emptyLabel then acc
    else if footnotePrefixes.any (fun p => pyStartsWith label_stripped p) then acc
    else
      let is_indented :=
        label_str ≠ label_stripped ∧ label_stripped.length < label_str.length
      let (variableName, new_parent) :=
        if is_indented ∧ current_parent ≠ "" then
          (cleanStr (current_parent ++ "__" ++ label_stripped), current_parent)
        else (cleanStr label_stripped, label_stripped)
      let newRecs := year_map.filterMap (fun q =>
        if q.1 < row.length then
          match cleanNumeric (row.getD q.1 none) with
          | none => none
          | some val =>
            some { year := q.2.1, year_label := q.2.2, varName := variableName,
                   value := val, report := report_id, table_id := sheet_name,
                   table_title := title, topic := topic }
        else none)
      (recs ++ newRecs, new_parent)

/-- `ingest.parse_wide_year_columns`: years as columns, hierarchical row
labels carried through a fold. -/
def parseWideYearColumns (rows : List (List Cell)) (year_row_idx : Nat)
    (report_id sheet_name : String) (title : Option String) (topic : String) :
    Option (List RawRecord) :=
  let year_row := rows.getD year_row_idx []
  let year_map : List (Nat × Int × String) :=
    year_row.enum.filterMap (fun p =>
      (parseYearValue p.2).map (fun yl => (p.1, yl.1, yl.2)))
  if year_map.isEmpty then none
  else
    let records := ((rows.drop (year_row_idx + 1)).foldl
      (wideRowStep year_map report_id sheet_name title topic) ([], "")).1
    if records.isEmpty then none else some records

/-- Count of year-like cells in a row (wide-format detection). -/
def countYearCells (row : List Cell) : Nat := row.countP (fun v => isYearLike v)

/-- `ingest.parse_sheet_to_long`: shape detection and dispatch. -/
def parseSheetToLong (rows : List (List Cell)) (report_id sheet_name topic : String)
    (substance_map : List (String × String)) : Option (List RawRecord) :=
  let title := extractTableTitle rows
  if rows.length < 3 then none
  else
    match anchorIdx rows with
    | some data_start =>
      longBranch rows data_start report_id sheet_name title topic substance_map
    | none =>
      match (rows.take 8).findIdx? (fun row => 3 ≤ countYearCells row) with
      | some idx => parseWideYearColumns rows idx report_id sheet_name title topic
      | none => none

/-! ### Ingestion tail: deduplication and the integrity check -/

/-- Worker for `firstDedupBy`: `seen` holds the keys already emitted. -/
def firstDedupByGo {α β : Type} [DecidableEq β] (key : α → β) (seen : List β) :
    List α → List α
  | [] => []
  | x :: t =>
    if key x ∈ seen then firstDedupByGo key seen t
    else x :: firstDedupByGo key (key x :: seen) t

/-- Keep-first deduplication by a key, as performed by
`DataFrame.drop_duplicates` (first occurrence wins, order preserved):
every later element with an already-seen key is dropped. -/
def firstDedupBy {α β : Type} [DecidableEq β] (key : α → β) (l : List α) :
    List α :=
  firstDedupByGo key [] l

/-- The exact-duplicate subset of `ingest_all`'s `drop_duplicates` call. -/
def ingestKey (r : RawRecord) : String × String × String × Int × String × ℚ :=
  (r.report, r.table_id, r.varName, r.year, r.year_label, r.value)

/-- `combined.drop_duplicates(subset=["report","table_id","variable","year","year_label","value"])`. -/
def dropDuplicates (l : List RawRecord) : List RawRecord :=
  firstDedupBy ingestKey l

/-- The intended uniqueness key of the integrity check's `GROUP BY`. -/
def uniqKey (r : RawRecord) : String × String × String × Int × String :=
  (r.report, r.table_id, r.varName, r.year, r.year_label)

/-- `COUNT(DISTINCT value)` for one group of the integrity-check query. -/
def distinctValues (store : List RawRecord)
    (k : String × String × String × Int × String) : List ℚ :=
  firstDedupBy id ((store.filter (fun r => uniqKey r = k)).map (fun r => r.value))

/-- The keys flagged by the integrity check
(`HAVING COUNT(DISTINCT value) > 1`). -/
def conflictKeys (store : List RawRecord) :
    List (String × String × String × Int × String) :=
  (firstDedupBy id (store.map uniqKey)).filter
    (fun k => 1 < (distinctValues store k).length)

/-- The tail of `ingest_all`: the stored `timeseries` contents and the
reported conflicts.  The check is a `SELECT`; it computes the report from the
store without writing to it. -/
def ingestFinal (combined : List RawRecord) :
    List RawRecord × List (String × String × String × Int × String) :=
  (dropDuplicates combined, conflictKeys (dropDuplicates combined))

/-! ### Insight pipeline (`insights.py`)

The two statistical kernels that are irrational-valued (`scipy`'s Welch
t-test with its p-value, Pearson's r with its p-value, and `np.std` inside
the mover z-score) are abstracted as function parameters; everything the
claims quantify over — which inputs the kernels receive and how their
outputs are filtered, maximised, sorted and truncated — is embedded
concretely.  `np.std(v) < 1e-10` is the exact rational comparison
`popVar v < 10⁻²⁰`. -/

/-- One row of `load_all_series`' dataframe. -/
structure SRec where
  report : String
  table_id : String
  table_title : Option String
  varName : String
  year : Int
  value : ℚ
deriving DecidableEq, Repr

/-- `df["series_id"] = report + "|" + table_id + "|" + variable`. -/
def seriesId (r : SRec) : String :=
  r.report ++ "|" ++ r.table_id ++ "|" ++ r.varName

/-- `col.split("|")[0]`: the prefix before the first `"|"`. -/
def reportOf (sid : String) : String := ⟨sid.data.takeWhile (fun c => c ≠ '|')⟩

/-- `np.mean` (list mean; callers guard against the empty list). -/
def mean (xs : List ℚ) : ℚ := xs.sum / xs.length

/-- Population variance (`np.std` squared, `ddof = 0`). -/
def popVar (xs : List ℚ) : ℚ :=
  ((xs.map (fun x => (x - mean xs) ^ 2)).sum) / xs.length

/-- `np.std(xs) < 1e-10`, expressed exactly on the variance. -/
def stdLtEps (xs : List ℚ) : Bool :=
  popVar xs < 1 / 10 ^ 20

/-- Banker's rounding to an integer (model of Python `round`;
binary-float representation artefacts are outside the model). -/
def roundHalfEven (x : ℚ) : Int :=
  let f : Int := ⌊x⌋
  let d : ℚ := x - f
  if d < 1 / 2 then f
  else if 1 / 2 < d then f + 1
  else if f % 2 = 0 then f else f + 1

/-- Python `round(x, n)`. -/
def pyRound (x : ℚ) (n : Nat) : ℚ :=
  (roundHalfEven (x * 10 ^ n) : ℚ) / 10 ^ n

/-- Keep-first dedup of the per-year duplicates, as `drop_duplicates("year")`
does on the already-sorted series: later rows whose year was seen are
dropped. -/
def dedupByYear : List SRec → List Int → List SRec
  | [], _ => []
  | r :: t, seen =>
    if r.year ∈ seen then dedupByYear t seen
    else r :: dedupByYear t (r.year :: seen)

/-- The contract of `group.sort_values("year")` with the default
`kind="quicksort"`: the output is *some* permutation of the group that is
ascending in `year`.  The default sort is documented as not stable, so the
relative order of rows sharing a year is unspecified; any function whose
outputs satisfy this relation is an admissible sort kernel. -/
def sortValuesByYear (g ts : List SRec) : Prop :=
  ts.Perm g ∧ ts.Sorted (fun a b : SRec => a.year ≤ b.year)

/-- `pivot_table(index="year", columns="series_id", values="value",
aggfunc="first")`: the cell for `(y, sid)` is the first matching value in
dataframe order, empty when no record exists. -/
def pivotValue (df : List SRec) (sid : String) (y : Int) : Option ℚ :=
  ((df.filter (fun r => seriesId r = sid ∧ r.year = y)).map (fun r => r.value)).head?

/-- The distinct years on which a pivot column is non-null, ascending
(the pandas year index restricted to the series). -/
def yearsOf (df : List SRec) (sid : String) : List Int :=
  List.insertionSort (fun a b : Int => a ≤ b)
    (((df.filter (fun r => seriesId r = sid)).map (fun r => r.year)).dedup)

/-- The distinct series identifiers, ascending (pandas pivot columns and
`groupby` keys are sorted). -/
def seriesIds (df : List SRec) : List String :=
  List.insertionSort (fun a b : String => charListLe a.data b.data = true)
    (firstDedupBy id (df.map seriesId))

/-- `min_overlap` (default of `find_cross_correlations`). -/
def corrMinOverlap : Nat := 10

/-- `top_n` (default of `find_cross_correlations`). -/
def corrTopN : Nat := 50

/-- `valid_cols`: series with at least `min_overlap` non-null years. -/
def validCols (df : List SRec) : List String :=
  (seriesIds df).filter (fun sid => corrMinOverlap ≤ (yearsOf df sid).length)

/-- `s1.index.intersection(s2.index)` on ascending indexes. -/
def commonYears (df : List SRec) (c1 c2 : String) : List Int :=
  (yearsOf df c1).filter (fun y => y ∈ yearsOf df c2)

/-- `s.loc[common_years].values`. -/
def valsAt (df : List SRec) (sid : String) (ys : List Int) : List ℚ :=
  ys.map (fun y => (pivotValue df sid y).getD 0)

/-- All ordered pairs `(l[i], l[j])` with `i < j` (the
`for i, r1 … for r2 in reports[i+1:]` double loop). -/
def listPairs {α : Type} : List α → List (α × α)
  | [] => []
  | x :: t => t.map (fun y => (x, y)) ++ listPairs t

/-- `report_groups` keys: reports in order of first appearance among the
valid columns (dict insertion order). -/
def reportKeys (valid : List String) : List String :=
  firstDedupBy id (valid.map reportOf)

/-- One report's list of valid columns, in order of appearance. -/
def colsOfReport (valid : List String) (k : String) : List String :=
  valid.filter (fun c => reportOf c = k)

/-- The ordered cross-report candidate pairs visited by the scanner's
nested loops. -/
def candidatePairs (valid : List String) : List (String × String) :=
  (listPairs (reportKeys valid)).flatMap (fun p =>
    (colsOfReport valid p.1).flatMap (fun c1 =>
      (colsOfReport valid p.2).map (fun c2 => (c1, c2))))

/-- One retained correlation row (provenance/title display columns and the
year-range columns of the source are omitted; no claim mentions them). -/
structure CorrEdge where
  series_1 : String
  series_2 : String
  correlation : ℚ
  p_value : ℚ
  overlap_years : Nat
  direction : String
deriving DecidableEq, Repr

/-- The body of the scanner's inner loop for one ordered pair: overlap
check, constant-series check, Pearson test (abstract `pearson` kernel),
`|r| > 0.7 ∧ p < 0.05` filter. -/
def evalPair (pearson : List ℚ → List ℚ → ℚ × ℚ) (df : List SRec)
    (c1 c2 : String) : Option CorrEdge :=
  let common := commonYears df c1 c2
  if common.length < corrMinOverlap then none
  else
    let v1 := valsAt df c1 common
    let v2 := valsAt df c2 common
    if stdLtEps v1 ∨ stdLtEps v2 then none
    else
      let rp := pearson v1 v2
      if 7 / 10 < |rp.1| ∧ rp.2 < 1 / 20 then
        some { series_1 := c1, series_2 := c2,
               correlation := pyRound rp.1 3, p_value := pyRound rp.2 6,
               overlap_years := common.length,
               direction := if 0 < rp.1 then "positive" else "negative" }
      else none

/-- The retained rows before the final sort/truncation. -/
def corrResultsPre (pearson : List ℚ → List ℚ → ℚ × ℚ) (df : List SRec) :
    List CorrEdge :=
  (candidatePairs (validCols df)).filterMap (fun p => evalPair pearson df p.1 p.2)

/-- `insights.find_cross_correlations`: retained pairs sorted by absolute
(reported) correlation descending, truncated to the top 50. -/
def findCrossCorrelations (pearson : List ℚ → List ℚ → ℚ × ℚ)
    (df : List SRec) : List CorrEdge :=
  (List.insertionSort (fun a b : CorrEdge => |b.correlation| ≤ |a.correlation|)
    (corrResultsPre pearson df)).take corrTopN

/-- `min_years` (default of `find_trend_changes`). -/
def trendMinYears : Nat := 10

/-- The candidate split indices of `find_trend_changes`:
`range(4, len(values) - 4)`. -/
def splitIndices (n : Nat) : List Nat := List.range' 4 (n - 8)

/-- The running best split of the trend-break loop. -/
structure BestSplit where
  t : ℚ
  splitYear : Option Int
  p : ℚ
  beforeMean : ℚ
  afterMean : ℚ

/-- One iteration of the split loop: skip when both sides are constant,
otherwise run the (abstract) Welch t-test and keep the split when `|t|`
strictly exceeds the incumbent. -/
def trendStep (ttest : List ℚ → List ℚ → ℚ × ℚ) (years : List Int)
    (values : List ℚ) (best : BestSplit) (i : Nat) : BestSplit :=
  let before := values.take i
  let after := values.drop i
  if stdLtEps before ∧ stdLtEps after then best
  else
    let tp := ttest before after
    if |best.t| < |tp.1| then
      { t := tp.1, splitYear := some (years.getD i 0), p := tp.2,
        beforeMean := mean before, afterMean := mean after }
    else best

/-- One reported trend break (`year_range` display column omitted). -/
structure TrendBreak where
  series_id : String
  break_year : Int
  mean_before : ℚ
  mean_after : ℚ
  change_pct : ℚ
  t_statistic : ℚ
  p_value : ℚ
  direction : String
deriving DecidableEq, Repr

/-- The per-series body of `insights.find_trend_changes`; `sortK` is the
abstract `sort_values("year")` kernel (admissible outputs are described by
`sortValuesByYear`; the default pandas sort fixes no tie order). -/
def seriesTrendBreak (ttest : List ℚ → List ℚ → ℚ × ℚ)
    (sortK : List SRec → List SRec) (sid : String)
    (g : List SRec) : Option TrendBreak :=
  let ts := dedupByYear (sortK g) []
  if ts.length < trendMinYears then none
  else
    let values := ts.map (fun r => r.value)
    let years := ts.map (fun r => r.year)
    if stdLtEps values then none
    else
      let best := (splitIndices values.length).foldl
        (trendStep ttest years values) ⟨0, none, 0, 0, 0⟩
      match best.splitYear with
      | none => none
      | some y =>
        if 3 < |best.t| then
          some { series_id := sid, break_year := y,
                 mean_before := pyRound best.beforeMean 2,
                 mean_after := pyRound best.afterMean 2,
                 change_pct := pyRound
                   (if best.beforeMean ≠ 0 then
                      (best.afterMean - best.beforeMean) / |best.beforeMean| * 100
                    else 0) 1,
                 t_statistic := pyRound best.t 2,
                 p_value := pyRound best.p 6,
                 direction :=
                   if best.beforeMean < best.afterMean then "increase"
                   else "decrease" }
        else none

/-- `insights.find_trend_changes`: per-series best split, sorted by
`|t|` descending. -/
def findTrendChanges (ttest : List ℚ → List ℚ → ℚ × ℚ)
    (sortK : List SRec → List SRec) (df : List SRec) :
    List TrendBreak :=
  List.insertionSort (fun a b : TrendBreak => |b.t_statistic| ≤ |a.t_statistic|)
    ((seriesIds df).filterMap (fun sid =>
      seriesTrendBreak ttest sortK sid (df.filter (fun r => seriesId r = sid))))

/-- `window` (default of `find_biggest_movers`). -/
def moverWindow : Nat := 5

/-- One reported mover. -/
structure Mover where
  series_id : String
  recent_mean : ℚ
  historical_mean : ℚ
  z_score : ℚ
  direction : String
  latest_year : Int
deriving DecidableEq, Repr

/-- The per-series body of `insights.find_biggest_movers` (`std` is the
abstract `np.std` kernel used in the z-score denominator, `sortK` the
abstract `sort_values("year")` kernel). -/
def seriesMover (std : List ℚ → ℚ) (sortK : List SRec → List SRec)
    (sid : String) (g : List SRec) : Option Mover :=
  let ts := dedupByYear (sortK g) []
  if ts.length < moverWindow + 5 then none
  else
    let values := ts.map (fun r => r.value)
    let years := ts.map (fun r => r.year)
    let recent := values.drop (values.length - moverWindow)
    let historical := values.take (values.length - moverWindow)
    if stdLtEps historical then none
    else
      let z := (mean recent - mean historical) / std historical
      if 2 < |z| then
        some { series_id := sid, recent_mean := pyRound (mean recent) 2,
               historical_mean := pyRound (mean historical) 2,
               z_score := pyRound z 2,
               direction := if 0 < z then "rising" else "falling",
               latest_year := (years.foldl max 0) }
      else none

/-- `insights.find_biggest_movers`, sorted by `|z|` descending. -/
def findBiggestMovers (std : List ℚ → ℚ) (sortK : List SRec → List SRec)
    (df : List SRec) : List Mover :=
  List.insertionSort (fun a b : Mover => |b.z_score| ≤ |a.z_score|)
    ((seriesIds df).filterMap (fun sid =>
      seriesMover std sortK sid (df.filter (fun r => seriesId r = sid))))

/-! ### Persistence of the insight tables (`run_all_insights`) -/

/-- The three insight tables of the database; `none` models an absent
table. -/
structure InsightDB where
  insight_correlations : Option (List CorrEdge)
  insight_trend_breaks : Option (List TrendBreak)
  insight_movers : Option (List Mover)
deriving DecidableEq, Repr

/-- The save step of `run_all_insights`: each table is dropped and
re-created from the scanner output only when that output is non-empty
(`if len(...) > 0`). -/
def saveInsights (db : InsightDB) (correlations : List CorrEdge)
    (changes : List TrendBreak) (movers : List Mover) : InsightDB :=
  { insight_correlations :=
      if 0 < correlations.length then some correlations
      else db.insight_correlations,
    insight_trend_breaks :=
      if 0 < changes.length then some changes else db.insight_trend_breaks,
    insight_movers :=
      if 0 < movers.length then some movers else db.insight_movers }

/-! ### Concrete inputs used by counterexamples and witnesses -/

/-- A sheet whose long-format anchor row (first cell a year) sits at row
index 10, beyond the 8-row detection window described by the spec. -/
def c2SheetA : List (List Cell) :=
  (List.replicate 10 [some (.str "x"), some (.str "h")]) ++
  [[some (.int 2000), some (.int 1)], [some (.int 2001), some (.int 2)]]

/-- Three rows, only two of which are non-empty. -/
def c2SheetB : List (List Cell) :=
  [[none, none], [some (.int 2000), some (.int 5)], [some (.int 2001), some (.int 6)]]

/-- A wide-format sheet whose third label carries trailing (not leading)
whitespace. -/
def c5Sheet : List (List Cell) :=
  [[none, some (.int 2000), some (.int 2001), some (.int 2002)],
   [some (.str "Parent"), some (.int 1), some (.int 1), some (.int 1)],
   [some (.str "Trail "), some (.int 2), some (.int 2), some (.int 2)]]

/-- A group row over a header row whose first column has both a group label
and a subheader. -/
def c6Sheet : List (List Cell) :=
  [[some (.str "Gr"), none], [some (.str "Sub0"), some (.str "Sub1")]]

/-- A sample retained correlation row. -/
def sampleEdge : CorrEdge :=
  { series_1 := "A|t|v", series_2 := "B|t|v", correlation := 9 / 10,
    p_value := 1 / 100, overlap_years := 12, direction := "positive" }

/-- A prior database state with a non-empty correlations table. -/
def priorDB : InsightDB :=
  { insight_correlations := some [sampleEdge],
    insight_trend_breaks := some [], insight_movers := some [] }

/-- A constant symmetric stand-in for the abstract Pearson kernel, used to
witness the correlation-scanner theorem on a concrete store. -/
def constPearson : List ℚ → List ℚ → ℚ × ℚ := fun _ _ => (4 / 5, 0)

/-- Two records of the same series for the same year with different values
(the detect-but-keep conflict policy permits these); `dupA` comes first in
load order. -/
def dupA : SRec :=
  { report := "A", table_id := "t", table_title := none, varName := "v",
    year := 2000, value := 1 }

/-- The later duplicate for the same `(series, year)`. -/
def dupB : SRec :=
  { report := "A", table_id := "t", table_title := none, varName := "v",
    year := 2000, value := 2 }

/-- A series group in load order. -/
def dupG : List SRec := [dupA, dupB]

/-- An admissible `sort_values("year")` output for `dupG`: the two rows tie
on `year`, so the unstable default sort may emit them in either order. -/
def dupTs : List SRec := [dupB, dupA]

/-- Two ten-point series from different reports sharing years 2000-2009,
both non-constant. -/
def corrDF : List SRec :=
  (List.range 10).map (fun i =>
    { report := "A", table_id := "t", table_title := none, varName := "v",
      year := 2000 + i, value := i }) ++
  (List.range 10).map (fun i =>
    { report := "B", table_id := "t", table_title := none, varName := "v",
      year := 2000 + i, value := 2 * i })

/-! ### Shared helper lemmas -/

theorem length_dropWhile_le (p : Char → Bool) (l : List Char) :
    (l.dropWhile p).length ≤ l.length := by
  induction l with
  | nil => simp
  | cons a t ih =>
    by_cases h : p a
    · simp only [List.dropWhile_cons, if_pos h, List.length_cons]
      omega
    · simp [List.dropWhile_cons, if_neg h]

theorem dropWhile_eq_self_of_length_eq {p : Char → Bool} :
    ∀ l : List Char, (l.dropWhile p).length = l.length → l.dropWhile p = l
  | [], _ => rfl
  | a :: t, h => by
    by_cases hp : p a
    · exfalso
      have hle := length_dropWhile_le p t
      rw [List.dropWhile_cons, if_pos hp] at h
      simp only [List.length_cons] at h
      omega
    · rw [List.dropWhile_cons, if_neg hp]

theorem pyStrip_length_le (s : String) : (pyStrip s).length ≤ s.length := by
  have h1 := length_dropWhile_le pyIsSpace s.data
  have h2 := length_dropWhile_le pyIsSpace (s.data.dropWhile pyIsSpace).reverse
  simp only [pyStrip, String.length]
  simp only [List.length_reverse] at h2 ⊢
  omega

theorem pyStrip_eq_of_length_eq (s : String) :
    (pyStrip s).length = s.length → pyStrip s = s := by
  intro h
  obtain ⟨l⟩ := s
  simp only [pyStrip, String.length, List.length_reverse] at h ⊢
  have h1 := length_dropWhile_le pyIsSpace l
  have h2 := length_dropWhile_le pyIsSpace (l.dropWhile pyIsSpace).reverse
  rw [List.length_reverse] at h2
  have e1 : l.dropWhile pyIsSpace = l :=
    dropWhile_eq_self_of_length_eq l (by omega)
  have e2 : (l.dropWhile pyIsSpace).reverse.dropWhile pyIsSpace =
      (l.dropWhile pyIsSpace).reverse :=
    dropWhile_eq_self_of_length_eq _ (by rw [List.length_reverse]; omega)
  rw [e2, List.reverse_reverse, e1]

theorem pyStrip_length_lt_of_ne (s : String) (h : pyStrip s ≠ s) :
    (pyStrip s).length < s.length := by
  rcases Nat.lt_or_ge (pyStrip s).length s.length with hlt | hge
  · exact hlt
  · exact absurd (pyStrip_eq_of_length_eq s (Nat.le_antisymm (pyStrip_length_le s) hge)) h

/-! ### C7 — YearParser -/

/-- C7: for every integer `y ∈ [1960, 2030]` the year parser maps `str(y)`
to `(y, str(y))` and the suffixed token `str(y) ++ "a"` to
`(y, str(y) ++ "a")`; `"1700"` and `"2050"` fail; `None` fails without
raising (the parser is a total function returning `none`). -/
theorem yearParser_c7 :
    (∀ y : Int, 1960 ≤ y → y ≤ 2030 →
      parseYearValue (some (.str (toString y))) = some (y, toString y) ∧
      parseYearValue (some (.str (toString y ++ "a"))) = some (y, toString y ++ "a")) ∧
    parseYearValue (some (.str "1700")) = none ∧
    parseYearValue (some (.str "2050")) = none ∧
    parseYearValue none = none := by
  refine ⟨?_, by with_unfolding_all decide, by with_unfolding_all decide, rfl⟩
  intro y h1 h2
  have hb : ∀ k : Nat, k < 71 →
      parseYearValue (some (.str (toString ((1960 : Int) + k)))) =
        some ((1960 : Int) + k, toString ((1960 : Int) + k)) ∧
      parseYearValue (some (.str (toString ((1960 : Int) + k) ++ "a"))) =
        some ((1960 : Int) + k, toString ((1960 : Int) + k) ++ "a") := by decide
  have hk : y = 1960 + ((y - 1960).toNat : Int) := by omega
  have hlt : (y - 1960).toNat < 71 := by omega
  rw [hk]
  exact hb _ hlt

/-- C7 witness at `y = 2019`. -/
theorem yearParser_c7_witness :
    (1960 : Int) ≤ 2019 ∧ (2019 : Int) ≤ 2030 ∧
    parseYearValue (some (.str "2019")) = some (2019, "2019") := by
  refine ⟨by norm_num, by norm_num, ?_⟩
  have h := (yearParser_c7.1 2019 (by norm_num) (by norm_num)).1
  exact h

/-! ### C8 — ValueNormalizer -/

/-- C8: every token of the closed missing-value set maps to `none`
(both casings of the word "none" included); `"12.5"` parses to `12.5`;
any other already-stripped string is numerically parsed after removal of
ordinary and non-breaking spaces; and the normalizer is total (never
raises). -/
theorem valueNormalizer_c8 :
    (∀ t ∈ ([".", "..", "–", "-", "…", "", "None", "none", "*"] : List String),
      cleanNumeric (some (.str t)) = none) ∧
    cleanNumeric (some (.str "12.5")) = some (25 / 2 : ℚ) ∧
    (∀ s : String, pyStrip s = s → s ∉ missingTokens →
      cleanNumeric (some (.str s)) =
        parseFloat? ⟨s.data.filter (fun c => ¬(c = ' ' ∨ c = '\xa0'))⟩) ∧
    (∀ c : Cell, cleanNumeric c = none ∨ ∃ q, cleanNumeric c = some q) := by
  refine ⟨by with_unfolding_all decide, by with_unfolding_all decide, ?_, ?_⟩
  · intro s hs hmem
    simp only [cleanNumeric, pyStr, hs]
    rw [if_neg hmem]
  · intro c
    match h : cleanNumeric c with
    | none => exact Or.inl rfl
    | some q => exact Or.inr ⟨q, rfl⟩

/-- C8 witness: the unparseable token `"abc"` is stripped-stable, outside
the missing set, and normalizes to `none` through the numeric-parse path. -/
theorem valueNormalizer_c8_witness :
    pyStrip "abc" = "abc" ∧ "abc" ∉ missingTokens ∧
    cleanNumeric (some (.str "abc")) =
      parseFloat? ⟨"abc".data.filter (fun c => ¬(c = ' ' ∨ c = '\xa0'))⟩ ∧
    ("–" ∈ ([".", "..", "–", "-", "…", "", "None", "none", "*"] : List String)) ∧
    cleanNumeric (some (.str "–")) = none := by
  refine ⟨by decide, by decide, ?_, by decide, ?_⟩
  · exact valueNormalizer_c8.2.2.1 "abc" (by decide) (by decide)
  · exact valueNormalizer_c8.1 "–" (by decide)

/-! ### C1 — TrendBreakDetector split range -/

/-- C1: the candidate-split loop `range(4, len(values) - 4)` evaluates
exactly the indices `i` with `4 ≤ i` and `i + 4 < n` — the "after" side
always keeps at least 5 points.  For a 10-point series the loop visits only
`[4, 5]`: the split index 6, which leaves exactly 4 points on each side and
which the code's own comment ("need at least 4 on each side") and the spec
admit as a candidate, is never evaluated. -/
theorem trendBreak_c1_splitRange :
    (∀ n i : Nat, i ∈ splitIndices n ↔ 4 ≤ i ∧ i + 4 < n) ∧
    splitIndices 10 = [4, 5] ∧
    6 ∉ splitIndices 10 ∧
    4 ≤ (6 : Nat) ∧ 4 ≤ 10 - (6 : Nat) := by
  refine ⟨fun n i => ?_, by decide, by decide, by decide, by decide⟩
  rw [splitIndices, List.mem_range']
  constructor
  · rintro ⟨j, hj, rfl⟩
    omega
  · rintro ⟨h4, hn⟩
    exact ⟨i - 4, by omega, by omega⟩

/-! ### C4 — insight-table persistence -/

/-- C4 counterexample: a run whose correlation scanner returns zero rows
leaves the prior (non-empty) `insight_correlations` table in place, not an
empty table. -/
theorem insightPersist_c4_counterexample :
    (saveInsights priorDB [] [] []).insight_correlations = some [sampleEdge] ∧
    some [sampleEdge] ≠ some ([] : List CorrEdge) := by
  constructor
  · rfl
  · simp

/-- C4 (amended): each insight table is dropped and re-created with exactly
the scanner's rows when the scanner produced at least one row; a scanner
producing zero rows leaves the prior table (including any stale rows from
an earlier run) untouched.  The save step itself never fails. -/
theorem insightPersist_c4_amended :
    ∀ (db : InsightDB) (c : List CorrEdge) (t : List TrendBreak) (m : List Mover),
      (c ≠ [] → (saveInsights db c t m).insight_correlations = some c) ∧
      (c = [] → (saveInsights db c t m).insight_correlations = db.insight_correlations) ∧
      (t ≠ [] → (saveInsights db c t m).insight_trend_breaks = some t) ∧
      (t = [] → (saveInsights db c t m).insight_trend_breaks = db.insight_trend_breaks) ∧
      (m ≠ [] → (saveInsights db c t m).insight_movers = some m) ∧
      (m = [] → (saveInsights db c t m).insight_movers = db.insight_movers) := by
  intro db c t m
  refine ⟨fun h => ?_, fun h => ?_, fun h => ?_, fun h => ?_, fun h => ?_, fun h => ?_⟩ <;>
    simp [saveInsights, h, List.length_pos]

/-- C4 witness: a non-empty scanner result replaces the table wholesale;
an empty one leaves the prior snapshot visible. -/
theorem insightPersist_c4_witness :
    ([sampleEdge] : List CorrEdge) ≠ [] ∧
    (saveInsights priorDB [sampleEdge] [] []).insight_correlations = some [sampleEdge] ∧
    (saveInsights priorDB [] [] []).insight_trend_breaks = some [] := by
  refine ⟨by simp, ?_, ?_⟩
  · exact (insightPersist_c4_amended priorDB [sampleEdge] [] []).1 (by simp)
  · exact ((insightPersist_c4_amended priorDB [] [] []).2.2.2.1) rfl

/-! ### C2 — SheetShapeDetector -/

/-- C2 counterexample: the long-format anchor search is not confined to the
leading 8-row window — `c2SheetA` has no year-like first cell and no wide
year row within its first 8 rows, yet it is parsed (anchor found at row 10)
and yields records; and `c2SheetB` has 3 rows of which only 2 are non-empty,
yet it is parsed rather than rejected. -/
theorem sheetDetector_c2_counterexample :
    ((c2SheetA.take 8).all (fun row => !isYearLike (firstCell row))) = true ∧
    ((c2SheetA.take 8).all (fun row => decide (countYearCells row < 3))) = true ∧
    (parseSheetToLong c2SheetA "R" "S" "T" []).isSome = true ∧
    c2SheetB.length = 3 ∧
    (c2SheetB.countP (fun row => !(row.all (fun c => c = none)))) = 2 ∧
    (parseSheetToLong c2SheetB "R" "S" "T" []).isSome = true := by
  refine ⟨by decide, by decide, by with_unfolding_all decide, by decide,
    by decide, by with_unfolding_all decide⟩

/-- C2 (amended): a sheet with fewer than 3 rows in total (empty rows
included) yields no records; a sheet with no year-like first cell in any row
and no row with ≥ 3 year-like cells among its first 8 rows yields no
records (skipped, not an error); and whenever some row's first cell parses
as a year, the sheet is parsed long-format from the first such row — the
anchor search ranges over all rows, not only the leading window. -/
theorem sheetDetector_c2_amended :
    ∀ (rows : List (List Cell)) (rid sn tp : String) (sm : List (String × String)),
      (rows.length < 3 → parseSheetToLong rows rid sn tp sm = none) ∧
      ((∀ row ∈ rows, isYearLike (firstCell row) = false) →
        (∀ row ∈ rows.take 8, countYearCells row < 3) →
        parseSheetToLong rows rid sn tp sm = none) ∧
      (3 ≤ rows.length → ∀ i, anchorIdx rows = some i →
        parseSheetToLong rows rid sn tp sm =
          longBranch rows i rid sn (extractTableTitle rows) tp sm) := by
  intro rows rid sn tp sm
  refine ⟨fun h => ?_, fun h1 h2 => ?_, fun h3 i hi => ?_⟩
  · simp [parseSheetToLong, h]
  · have ha : anchorIdx rows = none := by
      rw [anchorIdx, List.findIdx?_eq_none_iff]
      exact h1
    have hw : (rows.take 8).findIdx? (fun row => 3 ≤ countYearCells row) = none := by
      rw [List.findIdx?_eq_none_iff]
      intro row hrow
      exact decide_eq_false (Nat.not_le.mpr (h2 row hrow))
    by_cases hlen : rows.length < 3
    · simp [parseSheetToLong, hlen]
    · simp [parseSheetToLong, hlen, ha, hw]
  · simp [parseSheetToLong, Nat.not_lt.mpr h3, hi]

/-- C2 witness: a 1-row sheet is rejected; a 3-row year-free sheet is
rejected; `c2SheetB`'s anchor (row 1) drives the long-format parse. -/
theorem sheetDetector_c2_witness :
    ([[some (.str "x")]] : List (List Cell)).length < 3 ∧
    parseSheetToLong [[some (.str "x")]] "R" "S" "T" [] = none ∧
    parseSheetToLong [[some (.str "x")], [none], [some (.str "y")]] "R" "S" "T" [] = none ∧
    (3 : Nat) ≤ c2SheetB.length ∧ anchorIdx c2SheetB = some 1 ∧
    parseSheetToLong c2SheetB "R" "S" "T" [] =
      longBranch c2SheetB 1 "R" "S" (extractTableTitle c2SheetB) "T" [] := by
  refine ⟨by decide, (sheetDetector_c2_amended _ "R" "S" "T" []).1 (by decide),
    (sheetDetector_c2_amended _ "R" "S" "T" []).2.1 (by decide) (by decide),
    by decide, by decide,
    (sheetDetector_c2_amended c2SheetB "R" "S" "T" []).2.2 (by decide) 1 (by decide)⟩

/-! ### C6 — HeaderResolver -/

/-- C6 counterexample: in `c6Sheet` the first column has both a group label
(`"Gr"`) and a subheader (`"Sub0"`), but resolves to `"sub0"`, not the
normalized composite `"gr_sub0"` — the group prefix is never applied to
column 0 (while column 1 does receive it). -/
theorem headerResolver_c6_counterexample :
    resolveHeaders c6Sheet 1 = ["sub0", "gr_sub1"] ∧
    cleanStr ("Gr" ++ "__" ++ "Sub0") = "gr_sub0" ∧
    "sub0" ≠ "gr_sub0" := by
  refine ⟨by decide, by decide, by decide⟩

/-- C6 (amended): for every column after the first, the resolver composes
`group__subheader` when both the carried group and the subheader exist,
else whichever exists, else `col_N`; column 0 never receives the group
prefix (subheader if present, else `col_0`); navigation phrases never
update the carried group; duplicate normalized names get incrementing
integer suffixes (`["a","a","b"]` resolves to `["a","a_1","b"]`). -/
theorem headerResolver_c6_amended :
    (∀ (cg : String) (i : Nat) (group sub : Cell), 0 < i →
      (mergeStep cg i group sub).1 =
        (let cg' := (mergeStep cg i group sub).2
         let sub_str := match sub with | none => "" | some v => pyStrip (pyStr v)
         if cg' ≠ "" ∧ sub_str ≠ "" then cg' ++ "__" ++ sub_str
         else if sub_str ≠ "" then sub_str
         else if cg' ≠ "" then cg'
         else "col_" ++ toString i)) ∧
    (∀ (cg : String) (i : Nat) (sub : Cell) (g0 : String),
      navigationText (pyStrip g0) = true →
      (mergeStep cg i (some (.str g0)) sub).2 = cg) ∧
    (∀ (cg : String) (group sub : Cell),
      (mergeStep cg 0 group sub).1 =
        (let sub_str := match sub with | none => "" | some v => pyStrip (pyStr v)
         if sub_str ≠ "" then sub_str else "col_" ++ toString 0)) ∧
    resolveHeaders [[some (.str "a"), some (.str "a"), some (.str "b")]] 0 =
      ["a", "a_1", "b"] := by
  refine ⟨?_, ?_, ?_, by decide⟩
  · intro cg i group sub hi
    simp only [mergeStep, hi]
    simp [hi]
  · intro cg i sub g0 hnav
    simp [mergeStep, hnav]
  · intro cg group sub
    simp [mergeStep]

/-- C6 witness: column 1 with an empty group cell and subheader `"s"`
composes `"g__s"` from the carried group; a navigation group cell leaves
the carried group `"g"` unchanged. -/
theorem headerResolver_c6_witness :
    (mergeStep "g" 1 none (some (.str "s"))).1 = "g__s" ∧
    (mergeStep "g" 1 (some (.str "Tillbaka till innehåll")) none).2 = "g" := by
  constructor
  · have h := headerResolver_c6_amended.1 "g" 1 none (some (.str "s")) Nat.one_pos
    rw [h]
    decide
  · exact headerResolver_c6_amended.2.1 "g" 1 none "Tillbaka till innehåll" (by decide)

/-! ### C5 — HierarchicalLabelResolver -/

/-- C5 counterexample: in `c5Sheet` the label `"Trail "` has empty leading
whitespace, yet it is treated as a child of `"Parent"` (variable
`"parent_trail"`, the normalizer applied to `"Parent__Trail"`) instead of
becoming a new parent emitted alone as `"trail"` — the code's indentation
test fires on any surrounding whitespace, trailing included. -/
theorem labelResolver_c5_counterexample :
    "Trail ".data.takeWhile pyIsSpace = [] ∧
    (parseWideYearColumns c5Sheet 0 "R" "S" none "T").map
        (fun l => l.map (fun r => r.varName)) =
      some ["parent", "parent", "parent",
            "parent_trail", "parent_trail", "parent_trail"] ∧
    "trail" ∉ ((parseWideYearColumns c5Sheet 0 "R" "S" none "T").getD []).map
        (fun r => r.varName) := by
  refine ⟨by decide, by with_unfolding_all decide, by with_unfolding_all decide⟩

set_option maxHeartbeats 1600000 in
/-- C5 (amended): a non-empty, non-footnote row label is treated as a child
of the current parent iff its stripped form differs from the raw label
(leading **or trailing** whitespace) *and* a current parent exists; in every
other case its stripped form becomes the new current parent and is emitted
alone; footnote/source-prefixed labels are skipped and leave the parent
unchanged. -/
theorem labelResolver_c5_amended :
    ∀ (ym : List (Nat × Int × String)) (rid sn : String) (tt : Option String)
      (tp : String) (recs : List RawRecord) (parent : String)
      (row : List Cell) (s : String),
      firstCell row = some (.str s) → pyStrip s ≠ "" →
      ((footnotePrefixes.any (fun p => pyStartsWith (pyStrip s) p) = true →
          wideRowStep ym rid sn tt tp (recs, parent) row = (recs, parent)) ∧
       (footnotePrefixes.any (fun p => pyStartsWith (pyStrip s) p) = false →
          ((s ≠ pyStrip s ∧ parent ≠ "" →
            ∃ newRecs,
              wideRowStep ym rid sn tt tp (recs, parent) row =
                (recs ++ newRecs, parent) ∧
              ∀ r ∈ newRecs,
                r.varName = cleanStr (parent ++ "__" ++ pyStrip s)) ∧
           (s = pyStrip s ∨ parent = "" →
            ∃ newRecs,
              wideRowStep ym rid sn tt tp (recs, parent) row =
                (recs ++ newRecs, pyStrip s) ∧
              ∀ r ∈ newRecs, r.varName = cleanStr (pyStrip s))))) := by
  intro ym rid sn tt tp recs parent row s hfc hne
  constructor
  · intro hf
    simp only [wideRowStep, hfc, pyStr]
    rw [if_neg (by simp [hne]), if_pos hf]
  · intro hf
    constructor
    · rintro ⟨hind, hp⟩
      have hlen : (pyStrip s).length < s.length :=
        pyStrip_length_lt_of_ne s (Ne.symm hind)
      simp only [wideRowStep, hfc, pyStr]
      rw [if_neg (by simp [hne]), if_neg (by simp [hf]),
        if_pos (⟨⟨hind, hlen⟩, hp⟩ :
          (s ≠ pyStrip s ∧ (pyStrip s).length < s.length) ∧ parent ≠ "")]
      refine ⟨_, rfl, ?_⟩
      intro r hr
      rw [List.mem_filterMap] at hr
      obtain ⟨q, _, hq⟩ := hr
      split at hq
      · split at hq
        · exact absurd hq (by simp)
        · cases hq
          rfl
      · exact absurd hq (by simp)
    · intro hnp
      have hni : ¬((s ≠ pyStrip s ∧ (pyStrip s).length < s.length) ∧ parent ≠ "") := by
        rcases hnp with h | h
        · rintro ⟨⟨h1, _⟩, _⟩
          exact h1 h
        · rintro ⟨_, h2⟩
          exact h2 h
      simp only [wideRowStep, hfc, pyStr]
      rw [if_neg (by simp [hne]), if_neg (by simp [hf]), if_neg hni]
      refine ⟨_, rfl, ?_⟩
      intro r hr
      rw [List.mem_filterMap] at hr
      obtain ⟨q, _, hq⟩ := hr
      split at hq
      · split at hq
        · exact absurd hq (by simp)
        · cases hq
          rfl
      · exact absurd hq (by simp)

/-- C5 witness: the genuinely indented label `" Child"` under parent
`"Par"` is emitted as the composite `par_child` and keeps the parent. -/
theorem labelResolver_c5_witness :
    (wideRowStep [(1, 2000, "2000")] "R" "S" none "T" ([], "Par")
        [some (.str " Child"), some (.int 7)]).2 = "Par" := by
  obtain ⟨nr, hstep, hvar⟩ :=
    ((labelResolver_c5_amended [(1, 2000, "2000")] "R" "S" none "T" [] "Par"
        [some (.str " Child"), some (.int 7)] " Child" (by decide) (by decide)).2
      (by decide)).1 ⟨by decide, by decide⟩
  rw [hstep]

/-! ### Dedup lemmas (shared by C9, C10, C3) -/

theorem mem_firstDedupByGo_id {α : Type} [DecidableEq α] :
    ∀ (l : List α) (seen : List α) (x : α),
      x ∈ firstDedupByGo id seen l ↔ x ∈ l ∧ x ∉ seen := by
  intro l
  induction l with
  | nil => intro seen x; simp [firstDedupByGo]
  | cons y t ih =>
    intro seen x
    rw [firstDedupByGo]
    by_cases hy : y ∈ seen
    · rw [if_pos (by simpa using hy), ih]
      simp only [List.mem_cons]
      constructor
      · rintro ⟨hx, hxs⟩
        exact ⟨Or.inr hx, hxs⟩
      · rintro ⟨(rfl | hx), hxs⟩
        · exact absurd hy hxs
        · exact ⟨hx, hxs⟩
    · rw [if_neg (by simpa using hy)]
      simp only [List.mem_cons, ih, List.mem_cons]
      constructor
      · rintro (rfl | ⟨hx, hxs⟩)
        · exact ⟨Or.inl rfl, hy⟩
        · exact ⟨Or.inr hx, fun hc => hxs (Or.inr hc)⟩
      · rintro ⟨(rfl | hx), hxs⟩
        · exact Or.inl rfl
        · by_cases hxy : x = y
          · exact Or.inl hxy
          · refine Or.inr ⟨hx, fun hc => ?_⟩
            rcases hc with h | h
            · exact hxy h
            · exact hxs h

theorem mem_firstDedup_id {α : Type} [DecidableEq α] (l : List α) (x : α) :
    x ∈ firstDedupBy id l ↔ x ∈ l := by
  rw [firstDedupBy, mem_firstDedupByGo_id]
  simp

theorem nodup_firstDedupByGo_id {α : Type} [DecidableEq α] :
    ∀ (l : List α) (seen : List α), (firstDedupByGo id seen l).Nodup := by
  intro l
  induction l with
  | nil => intro seen; simp [firstDedupByGo]
  | cons y t ih =>
    intro seen
    rw [firstDedupByGo]
    by_cases hy : y ∈ seen
    · rw [if_pos (by simpa using hy)]
      exact ih seen
    · rw [if_neg (by simpa using hy)]
      refine List.nodup_cons.mpr ⟨?_, ih _⟩
      intro hmem
      exact ((mem_firstDedupByGo_id t (y :: seen) y).mp hmem).2 (List.mem_cons_self y seen)

theorem nodup_firstDedup_id {α : Type} [DecidableEq α] (l : List α) :
    (firstDedupBy id l).Nodup :=
  nodup_firstDedupByGo_id l []

theorem one_lt_length_firstDedup_iff {α : Type} [DecidableEq α] (l : List α) :
    1 < (firstDedupBy id l).length ↔ ∃ a ∈ l, ∃ b ∈ l, a ≠ b := by
  constructor
  · intro h
    match hd : firstDedupBy id l with
    | [] => rw [hd] at h; simp at h
    | [x] => rw [hd] at h; simp at h
    | a :: b :: rest =>
      have hnd := nodup_firstDedup_id l
      rw [hd] at hnd
      have hab : a ≠ b := by
        rcases List.nodup_cons.mp hnd with ⟨hna, _⟩
        intro he
        exact hna (he ▸ List.mem_cons_self b rest)
      have ha : a ∈ l := by
        have := hd ▸ List.mem_cons_self a (b :: rest)
        exact (mem_firstDedup_id l a).mp this
      have hb : b ∈ l := by
        have : b ∈ firstDedupBy id l := hd ▸ List.mem_cons_of_mem a (List.mem_cons_self b rest)
        exact (mem_firstDedup_id l b).mp this
      exact ⟨a, ha, b, hb, hab⟩
  · rintro ⟨a, ha, b, hb, hab⟩
    have ha' : a ∈ firstDedupBy id l := (mem_firstDedup_id l a).mpr ha
    have hb' : b ∈ firstDedupBy id l := (mem_firstDedup_id l b).mpr hb
    match hd : firstDedupBy id l with
    | [] =>
      rw [hd] at ha'
      simp at ha'
    | [x] =>
      rw [hd] at ha' hb'
      simp at ha' hb'
      exact absurd (ha'.trans hb'.symm) hab
    | x :: y :: rest =>
      simp only [List.length_cons]
      omega

/-! ### C9 — IntegrityChecker -/

/-- C9: the integrity check flags a key iff the deduplicated store contains
two records with that key and different values; and the stored `timeseries`
is exactly the deduplicated record set, unchanged by the check. -/
theorem integrityChecker_c9 :
    ∀ (combined : List RawRecord) (k : String × String × String × Int × String),
      (ingestFinal combined).1 = dropDuplicates combined ∧
      (k ∈ (ingestFinal combined).2 ↔
        ∃ r1 ∈ dropDuplicates combined, ∃ r2 ∈ dropDuplicates combined,
          uniqKey r1 = k ∧ uniqKey r2 = k ∧ r1.value ≠ r2.value) := by
  intro combined k
  refine ⟨rfl, ?_⟩
  show k ∈ conflictKeys (dropDuplicates combined) ↔ _
  rw [conflictKeys, List.mem_filter]
  constructor
  · rintro ⟨hk, hlen⟩
    rw [decide_eq_true_eq] at hlen
    rw [distinctValues] at hlen
    obtain ⟨a, ha, b, hb, hab⟩ := (one_lt_length_firstDedup_iff _).mp hlen
    simp only [List.mem_map, List.mem_filter, decide_eq_true_eq] at ha hb
    obtain ⟨r1, ⟨hr1s, hr1k⟩, rfl⟩ := ha
    obtain ⟨r2, ⟨hr2s, hr2k⟩, rfl⟩ := hb
    exact ⟨r1, hr1s, r2, hr2s, hr1k, hr2k, hab⟩
  · rintro ⟨r1, h1, r2, h2, hk1, hk2, hv⟩
    refine ⟨?_, ?_⟩
    · exact (mem_firstDedup_id _ _).mpr (List.mem_map.mpr ⟨r1, h1, hk1⟩)
    · rw [decide_eq_true_eq, distinctValues]
      apply (one_lt_length_firstDedup_iff _).mpr
      refine ⟨r1.value, ?_, r2.value, ?_, hv⟩
      · exact List.mem_map.mpr ⟨r1, List.mem_filter.mpr ⟨h1, by simp [hk1]⟩, rfl⟩
      · exact List.mem_map.mpr ⟨r2, List.mem_filter.mpr ⟨h2, by simp [hk2]⟩, rfl⟩

/-! ### C10 — duplicate handling in the scanners -/

theorem find?_eq_head?_filter {α : Type} (p : α → Bool) (l : List α) :
    l.find? p = (l.filter p).head? := by
  induction l with
  | nil => rfl
  | cons a t ih =>
    by_cases h : p a
    · rw [List.find?_cons_of_pos _ h, List.filter_cons_of_pos h]
      rfl
    · rw [List.find?_cons_of_neg _ (by simp [h]),
        List.filter_cons_of_neg (by simp [h]), ih]

theorem find?_year_cons_pos (r : SRec) (t : List SRec) (y : Int) (h : r.year = y) :
    (r :: t).find? (fun s => s.year = y) = some r := by
  rw [List.find?_cons_of_pos]
  simp [h]

theorem find?_year_cons_neg (r : SRec) (t : List SRec) (y : Int) (h : ¬ r.year = y) :
    (r :: t).find? (fun s => s.year = y) = t.find? (fun s => s.year = y) := by
  rw [List.find?_cons_of_neg]
  simp [h]

theorem find?_dedupByYear :
    ∀ (l : List SRec) (seen : List Int) (y : Int),
      (dedupByYear l seen).find? (fun r => r.year = y) =
        if y ∈ seen then none else l.find? (fun r => r.year = y) := by
  intro l
  induction l with
  | nil => intro seen y; simp [dedupByYear]
  | cons r t ih =>
    intro seen y
    rw [dedupByYear]
    by_cases hr : r.year ∈ seen
    · rw [if_pos hr, ih]
      by_cases hy : y ∈ seen
      · simp [hy]
      · have hne : ¬(r.year = y) := fun he => hy (he ▸ hr)
        rw [if_neg hy, if_neg hy, find?_year_cons_neg r t y hne]
    · rw [if_neg hr]
      by_cases hry : r.year = y
      · subst hry
        rw [if_neg hr, find?_year_cons_pos _ _ _ rfl, find?_year_cons_pos _ _ _ rfl]
      · rw [find?_year_cons_neg _ _ _ hry, ih]
        by_cases hy : y ∈ seen
        · rw [if_pos (List.mem_cons_of_mem _ hy), if_pos hy]
        · have hyn : y ∉ r.year :: seen := by
            intro hc
            rcases List.mem_cons.mp hc with h | h
            · exact hry h.symm
            · exact hy h
          rw [if_neg hyn, if_neg hy, find?_year_cons_neg _ _ _ hry]

theorem dedupByYear_year_not_mem :
    ∀ (l : List SRec) (seen : List Int) (r : SRec),
      r ∈ dedupByYear l seen → r.year ∉ seen := by
  intro l
  induction l with
  | nil => intro seen r h; simp [dedupByYear] at h
  | cons x t ih =>
    intro seen r h
    rw [dedupByYear] at h
    by_cases hx : x.year ∈ seen
    · rw [if_pos hx] at h
      exact ih seen r h
    · rw [if_neg hx] at h
      rcases List.mem_cons.mp h with rfl | h
      · exact hx
      · intro hc
        exact (ih _ r h) (List.mem_cons_of_mem _ hc)

theorem pairwise_dedupByYear :
    ∀ (l : List SRec) (seen : List Int),
      (dedupByYear l seen).Pairwise (fun a b => a.year ≠ b.year) := by
  intro l
  induction l with
  | nil => intro seen; simp [dedupByYear]
  | cons x t ih =>
    intro seen
    rw [dedupByYear]
    by_cases hx : x.year ∈ seen
    · rw [if_pos hx]
      exact ih seen
    · rw [if_neg hx]
      refine List.pairwise_cons.mpr ⟨?_, ih _⟩
      intro b hb he
      exact (dedupByYear_year_not_mem t (x.year :: seen) b hb)
        (he ▸ List.mem_cons_self x.year seen)

theorem mem_of_mem_dedupByYear :
    ∀ (l : List SRec) (seen : List Int) (r : SRec),
      r ∈ dedupByYear l seen → r ∈ l := by
  intro l
  induction l with
  | nil => intro seen r h; simp [dedupByYear] at h
  | cons x t ih =>
    intro seen r h
    rw [dedupByYear] at h
    by_cases hx : x.year ∈ seen
    · rw [if_pos hx] at h
      exact List.mem_cons_of_mem _ (ih seen r h)
    · rw [if_neg hx] at h
      rcases List.mem_cons.mp h with rfl | h
      · exact List.mem_cons_self _ _
      · exact List.mem_cons_of_mem _ (ih _ r h)

set_option maxRecDepth 8000 in
/-- C10 counterexample: `dupTs` is an admissible output of
`sort_values("year")` on `dupG` (a year-sorted permutation — the default
pandas sort is not stable, so ties may be emitted in either order), yet
`drop_duplicates("year")` on it keeps `dupB`, while the first record with
year 2000 in load order is `dupA`, whose value differs — so the surviving
(and hence result-influencing) value need not be the first in load order. -/
theorem duplicatePolicy_c10_counterexample :
    sortValuesByYear dupG dupTs ∧
    dedupByYear dupTs [] = [dupB] ∧
    dupG.find? (fun r => r.year = 2000) = some dupA ∧
    dupB ≠ dupA ∧ dupB.value ≠ dupA.value := by
  refine ⟨⟨List.Perm.swap dupA dupB [], ?_⟩, ?_, ?_, ?_, ?_⟩
  · with_unfolding_all decide
  · with_unfolding_all decide
  · with_unfolding_all decide
  · with_unfolding_all decide
  · with_unfolding_all decide

/-- C10 (amended): the correlation scanner's pivot cell (`aggfunc="first"`,
an order-guaranteed pandas aggregation) is the value of the first matching
record in load order; the trend-break and mover detectors, for ANY
admissible output of the (not stability-guaranteed) year sort, keep at most
one record per year, every kept record is one of the stored records of the
group, and exactly the years present in the group survive — so at most one
of the duplicate values per year can influence a trend-break or mover
result, but which duplicate survives is unspecified. -/
theorem duplicatePolicy_c10_amended :
    (∀ (g ts : List SRec), sortValuesByYear g ts →
      (dedupByYear ts []).Pairwise (fun a b => a.year ≠ b.year) ∧
      (∀ r ∈ dedupByYear ts [], r ∈ g) ∧
      (∀ y : Int, (∃ r ∈ g, r.year = y) ↔ ∃ r ∈ dedupByYear ts [], r.year = y)) ∧
    (∀ (df : List SRec) (sid : String) (y : Int),
      pivotValue df sid y =
        (df.find? (fun r => seriesId r = sid ∧ r.year = y)).map
          (fun r => r.value)) := by
  refine ⟨fun g ts hs => ⟨pairwise_dedupByYear _ [], ?_, fun y => ?_⟩,
    fun df sid y => ?_⟩
  · intro r hr
    exact hs.1.subset (mem_of_mem_dedupByYear ts [] r hr)
  · have hfind : (dedupByYear ts []).find? (fun r => r.year = y) =
        ts.find? (fun r => r.year = y) := by
      rw [find?_dedupByYear, if_neg (List.not_mem_nil y)]
    constructor
    · rintro ⟨r, hrg, hry⟩
      have hrt : r ∈ ts := hs.1.mem_iff.mpr hrg
      have : (ts.find? (fun r => r.year = y)).isSome = true := by
        rw [List.find?_isSome]
        exact ⟨r, hrt, by simp [hry]⟩
      rw [← hfind, List.find?_isSome] at this
      obtain ⟨r', hr', hy'⟩ := this
      exact ⟨r', hr', by simpa using hy'⟩
    · rintro ⟨r, hrd, hry⟩
      exact ⟨r, hs.1.subset (mem_of_mem_dedupByYear ts [] r hrd), hry⟩
  · rw [pivotValue, find?_eq_head?_filter]
    exact List.head?_map _ _

set_option maxRecDepth 8000 in
/-- C10 witness: the concrete admissible sort output `dupTs` of `dupG`
satisfies the contract, and the amended theorem applies to it. -/
theorem duplicatePolicy_c10_witness :
    sortValuesByYear dupG dupTs ∧
    (dedupByYear dupTs []).Pairwise (fun a b => a.year ≠ b.year) ∧
    dupB ∈ dupG := by
  have hs : sortValuesByYear dupG dupTs :=
    ⟨List.Perm.swap dupA dupB [], by with_unfolding_all decide⟩
  obtain ⟨h1, h2, h3⟩ := (duplicatePolicy_c10_amended.1 dupG dupTs hs)
  exact ⟨hs, h1, h2 dupB (by with_unfolding_all decide)⟩

/-! ### C3 — CorrelationScanner -/

theorem mem_listPairs_ne {α : Type} :
    ∀ (l : List α), l.Nodup → ∀ x y : α, (x, y) ∈ listPairs l → x ≠ y := by
  intro l
  induction l with
  | nil =>
    intro _ x y h
    simp [listPairs] at h
  | cons a t ih =>
    intro hnd x y h
    rw [listPairs] at h
    rcases List.mem_append.mp h with h | h
    · rw [List.mem_map] at h
      obtain ⟨z, hz, hzz⟩ := h
      cases hzz
      intro he
      exact (List.nodup_cons.mp hnd).1 (he ▸ hz)
    · exact ih (List.nodup_cons.mp hnd).2 x y h

theorem listPairs_total {α : Type} :
    ∀ (l : List α) (x y : α), x ≠ y → x ∈ l → y ∈ l →
      (x, y) ∈ listPairs l ∨ (y, x) ∈ listPairs l := by
  intro l
  induction l with
  | nil =>
    intro x y _ hx _
    simp at hx
  | cons a t ih =>
    intro x y hne hx hy
    rw [listPairs]
    by_cases hxa : x = a
    · have hyt : y ∈ t := by
        rcases List.mem_cons.mp hy with h | h
        · exact absurd (hxa.trans h.symm) hne
        · exact h
      exact Or.inl (List.mem_append_left _ (List.mem_map.mpr ⟨y, hyt, by rw [hxa]⟩))
    · by_cases hya : y = a
      · have hxt : x ∈ t := by
          rcases List.mem_cons.mp hx with h | h
          · exact absurd h hxa
          · exact h
        exact Or.inr (List.mem_append_left _ (List.mem_map.mpr ⟨x, hxt, by rw [hya]⟩))
      · have hxt : x ∈ t := by
          rcases List.mem_cons.mp hx with h | h
          · exact absurd h hxa
          · exact h
        have hyt : y ∈ t := by
          rcases List.mem_cons.mp hy with h | h
          · exact absurd h hya
          · exact h
        rcases ih x y hne hxt hyt with h | h
        · exact Or.inl (List.mem_append_right _ h)
        · exact Or.inr (List.mem_append_right _ h)

theorem mem_reportKeys (valid : List String) (k : String) :
    k ∈ reportKeys valid ↔ ∃ c ∈ valid, reportOf c = k := by
  rw [reportKeys, mem_firstDedup_id, List.mem_map]

theorem mem_candidatePairs (valid : List String) (c1 c2 : String) :
    (c1, c2) ∈ candidatePairs valid ↔
      ((reportOf c1, reportOf c2) ∈ listPairs (reportKeys valid) ∧
        c1 ∈ valid ∧ c2 ∈ valid) := by
  rw [candidatePairs]
  simp only [List.mem_flatMap, List.mem_map, colsOfReport, List.mem_filter,
    decide_eq_true_eq, Prod.mk.injEq]
  constructor
  · rintro ⟨p, hp, a, ⟨hav, har⟩, b, ⟨hbv, hbr⟩, rfl, rfl⟩
    rw [har, hbr]
    exact ⟨(by rwa [← Prod.mk.eta (p := p)] at hp), hav, hbv⟩
  · rintro ⟨hp, h1, h2⟩
    exact ⟨(reportOf c1, reportOf c2), hp, c1, ⟨h1, rfl⟩, c2, ⟨h2, rfl⟩, rfl, rfl⟩

theorem mem_validCols_iff (df : List SRec) (c : String) :
    c ∈ validCols df ↔
      (∃ r ∈ df, seriesId r = c) ∧ corrMinOverlap ≤ (yearsOf df c).length := by
  rw [validCols, List.mem_filter]
  constructor
  · rintro ⟨hmem, hlen⟩
    rw [decide_eq_true_eq] at hlen
    rw [seriesIds, List.mem_insertionSort, mem_firstDedup_id, List.mem_map] at hmem
    obtain ⟨r, hr, rfl⟩ := hmem
    exact ⟨⟨r, hr, rfl⟩, hlen⟩
  · rintro ⟨⟨r, hr, rfl⟩, hlen⟩
    refine ⟨?_, by simpa using hlen⟩
    rw [seriesIds, List.mem_insertionSort, mem_firstDedup_id, List.mem_map]
    exact ⟨r, hr, rfl⟩

theorem yearsOf_sorted_lt (df : List SRec) (sid : String) :
    (yearsOf df sid).Sorted (fun a b : Int => a < b) := by
  have hs : (yearsOf df sid).Sorted (fun a b : Int => a ≤ b) :=
    List.sorted_insertionSort _ _
  have hn : (yearsOf df sid).Nodup :=
    (List.perm_insertionSort _ _).symm.nodup (List.nodup_dedup _)
  exact hs.lt_of_le hn

theorem yearsOf_nodup (df : List SRec) (sid : String) :
    (yearsOf df sid).Nodup :=
  (List.perm_insertionSort _ _).symm.nodup (List.nodup_dedup _)

theorem commonYears_comm (df : List SRec) (a b : String) :
    commonYears df a b = commonYears df b a := by
  apply List.eq_of_perm_of_sorted (r := fun x y : Int => x ≤ y)
  · apply (List.perm_ext_iff_of_nodup ((yearsOf_nodup df a).filter _)
      ((yearsOf_nodup df b).filter _)).mpr
    intro y
    simp only [commonYears, List.mem_filter]
    simp only [decide_eq_true_eq]
    exact ⟨fun ⟨h1, h2⟩ => ⟨h2, h1⟩, fun ⟨h1, h2⟩ => ⟨h2, h1⟩⟩
  · exact List.Pairwise.filter _ (List.sorted_insertionSort _ _)
  · exact List.Pairwise.filter _ (List.sorted_insertionSort _ _)

theorem evalPair_some_sides (pe : List ℚ → List ℚ → ℚ × ℚ) (df : List SRec)
    (a b : String) (e : CorrEdge) (h : evalPair pe df a b = some e) :
    e.series_1 = a ∧ e.series_2 = b := by
  simp only [evalPair] at h
  split at h
  · exact absurd h (by simp)
  · split at h
    · exact absurd h (by simp)
    · split at h
      · cases h
        exact ⟨rfl, rfl⟩
      · exact absurd h (by simp)

theorem evalPair_isSome_iff (pe : List ℚ → List ℚ → ℚ × ℚ) (df : List SRec)
    (a b : String) :
    (evalPair pe df a b).isSome = true ↔
      (corrMinOverlap ≤ (commonYears df a b).length ∧
       stdLtEps (valsAt df a (commonYears df a b)) = false ∧
       stdLtEps (valsAt df b (commonYears df a b)) = false ∧
       7 / 10 < |(pe (valsAt df a (commonYears df a b))
                    (valsAt df b (commonYears df a b))).1| ∧
       (pe (valsAt df a (commonYears df a b))
          (valsAt df b (commonYears df a b))).2 < 1 / 20) := by
  simp only [evalPair]
  by_cases h1 : (commonYears df a b).length < corrMinOverlap
  · simp [h1, Nat.not_le.mpr h1]
  · rw [if_neg h1]
    by_cases ha : stdLtEps (valsAt df a (commonYears df a b)) = true
    · simp [ha]
    · by_cases hb : stdLtEps (valsAt df b (commonYears df a b)) = true
      · simp [hb]
      · rw [if_neg (by simp [ha, hb])]
        by_cases h3 : 7 / 10 < |(pe (valsAt df a (commonYears df a b))
              (valsAt df b (commonYears df a b))).1| ∧
            (pe (valsAt df a (commonYears df a b))
              (valsAt df b (commonYears df a b))).2 < 1 / 20
        · rw [if_pos h3]
          simp only [Option.isSome_some, true_iff]
          exact ⟨Nat.not_lt.mp h1, by simpa using ha, by simpa using hb, h3.1, h3.2⟩
        · rw [if_neg h3]
          simp only [Option.isSome_none, Bool.false_eq_true, false_iff]
          rintro ⟨-, -, -, hr, hp⟩
          exact h3 ⟨hr, hp⟩

/-- C3: a pair of series appears among the retained correlation rows
(in one of the two orientations) iff both series occur in the store with at
least 10 non-null years each, they come from different reports, the year
overlap has at least 10 years, neither side is (near-)constant over the
overlap, and the Pearson kernel on the overlapping values gives
`|r| > 0.7` and `p < 0.05`; the final output is these rows sorted by
`|reported correlation|` descending, truncated to the top 50. -/
theorem corrScanner_c3 (pe : List ℚ → List ℚ → ℚ × ℚ)
    (hsym : ∀ v w, pe v w = pe w v) (df : List SRec) :
    (∀ c1 c2 : String,
      (∃ e ∈ corrResultsPre pe df,
          (e.series_1 = c1 ∧ e.series_2 = c2) ∨
          (e.series_1 = c2 ∧ e.series_2 = c1)) ↔
        ((∃ r ∈ df, seriesId r = c1) ∧
         corrMinOverlap ≤ (yearsOf df c1).length ∧
         (∃ r ∈ df, seriesId r = c2) ∧
         corrMinOverlap ≤ (yearsOf df c2).length ∧
         reportOf c1 ≠ reportOf c2 ∧
         corrMinOverlap ≤ (commonYears df c1 c2).length ∧
         stdLtEps (valsAt df c1 (commonYears df c1 c2)) = false ∧
         stdLtEps (valsAt df c2 (commonYears df c1 c2)) = false ∧
         7 / 10 < |(pe (valsAt df c1 (commonYears df c1 c2))
                      (valsAt df c2 (commonYears df c1 c2))).1| ∧
         (pe (valsAt df c1 (commonYears df c1 c2))
            (valsAt df c2 (commonYears df c1 c2))).2 < 1 / 20)) ∧
    findCrossCorrelations pe df =
      (List.insertionSort (fun a b : CorrEdge => |b.correlation| ≤ |a.correlation|)
        (corrResultsPre pe df)).take corrTopN := by
  refine ⟨?_, rfl⟩
  intro c1 c2
  constructor
  · rintro ⟨e, he, hor⟩
    rw [corrResultsPre, List.mem_filterMap] at he
    obtain ⟨⟨a, b⟩, hcand, hev⟩ := he
    obtain ⟨hs1, hs2⟩ := evalPair_some_sides pe df a b e hev
    have hsome : (evalPair pe df a b).isSome = true := by
      rw [hev]
      rfl
    rw [evalPair_isSome_iff] at hsome
    obtain ⟨hov, hstd1, hstd2, hr, hp⟩ := hsome
    rw [mem_candidatePairs] at hcand
    obtain ⟨hkeys, hav, hbv⟩ := hcand
    have hne : reportOf a ≠ reportOf b :=
      mem_listPairs_ne _ (nodup_firstDedup_id _) _ _ hkeys
    rw [mem_validCols_iff] at hav hbv
    rcases hor with ⟨h1, h2⟩ | ⟨h1, h2⟩
    · have hac : c1 = a := by rw [← h1, hs1]
      have hbc : c2 = b := by rw [← h2, hs2]
      subst hac
      subst hbc
      exact ⟨hav.1, hav.2, hbv.1, hbv.2, hne, hov, hstd1, hstd2, hr, hp⟩
    · have hac : c2 = a := by rw [← h1, hs1]
      have hbc : c1 = b := by rw [← h2, hs2]
      subst hac
      subst hbc
      rw [commonYears_comm df c2 c1] at hov hstd1 hstd2 hr hp
      rw [hsym] at hr hp
      exact ⟨hbv.1, hbv.2, hav.1, hav.2, Ne.symm hne, hov, hstd2, hstd1, hr, hp⟩
  · rintro ⟨hc1, hl1, hc2, hl2, hne, hov, hstd1, hstd2, hr, hp⟩
    have hv1 : c1 ∈ validCols df := (mem_validCols_iff df c1).mpr ⟨hc1, hl1⟩
    have hv2 : c2 ∈ validCols df := (mem_validCols_iff df c2).mpr ⟨hc2, hl2⟩
    have hk1 : reportOf c1 ∈ reportKeys (validCols df) :=
      (mem_reportKeys _ _).mpr ⟨c1, hv1, rfl⟩
    have hk2 : reportOf c2 ∈ reportKeys (validCols df) :=
      (mem_reportKeys _ _).mpr ⟨c2, hv2, rfl⟩
    rcases listPairs_total _ _ _ hne hk1 hk2 with hkp | hkp
    · have hcand : (c1, c2) ∈ candidatePairs (validCols df) :=
        (mem_candidatePairs _ _ _).mpr ⟨hkp, hv1, hv2⟩
      have hsome : (evalPair pe df c1 c2).isSome = true :=
        (evalPair_isSome_iff pe df c1 c2).mpr ⟨hov, hstd1, hstd2, hr, hp⟩
      obtain ⟨e, hev⟩ := Option.isSome_iff_exists.mp hsome
      obtain ⟨hs1, hs2⟩ := evalPair_some_sides pe df c1 c2 e hev
      refine ⟨e, ?_, Or.inl ⟨hs1, hs2⟩⟩
      rw [corrResultsPre, List.mem_filterMap]
      exact ⟨(c1, c2), hcand, hev⟩
    · have hcand : (c2, c1) ∈ candidatePairs (validCols df) :=
        (mem_candidatePairs _ _ _).mpr ⟨hkp, hv2, hv1⟩
      have hsome : (evalPair pe df c2 c1).isSome = true := by
        rw [evalPair_isSome_iff, commonYears_comm df c2 c1, hsym]
        exact ⟨hov, hstd2, hstd1, hr, hp⟩
      obtain ⟨e, hev⟩ := Option.isSome_iff_exists.mp hsome
      obtain ⟨hs1, hs2⟩ := evalPair_some_sides pe df c2 c1 e hev
      refine ⟨e, ?_, Or.inr ⟨hs1, hs2⟩⟩
      rw [corrResultsPre, List.mem_filterMap]
      exact ⟨(c2, c1), hcand, hev⟩

/-- C3 witness: with the constant symmetric kernel, the cross-report pair
of `corrDF` is retained. -/
theorem corrScanner_c3_witness :
    ∃ e ∈ corrResultsPre constPearson corrDF,
      (e.series_1 = "A|t|v" ∧ e.series_2 = "B|t|v") ∨
      (e.series_1 = "B|t|v" ∧ e.series_2 = "A|t|v") := by
  apply ((corrScanner_c3 constPearson (fun _ _ => rfl) corrDF).1 "A|t|v" "B|t|v").mpr
  refine ⟨?_, ?_, ?_, ?_, ?_, ?_, ?_, ?_, ?_, ?_⟩ <;> with_unfolding_all decide

end CanExplorer
